import Mathlib

/-!
Shallow embedding of the toy payment engine (`src/main.rs`).

The engine replays an ordered log of transaction records against two maps:
a transaction ledger (`tx_map : tx_id → InputRecord`) and an account table
(`client_map : client_id → OutputRecord`).  Five handlers (deposit,
withdrawal, dispute, resolve, chargeback) mutate these maps; every
rejection is silent.

Modelling conventions:
* Rust `u16`/`u32` identifiers become `Nat` (their values are only compared
  for equality, never overflowed).
* Rust `i64` monetary fields become `ℤ`; none of the claims concern
  64-bit overflow.
* The Rust record carries the raw amount as `f32`.  Every finite `f32`
  value is a dyadic rational, so the amount is modelled as `ℚ`.  The two
  conversions in the source, `(amount * 1e4).round() as i64` (deposit and
  withdrawal handlers) and `(amount * 1e4) as i64` (dispute, resolve and
  chargeback handlers), are modelled as exact-rational scale-then-round
  (half away from zero) and scale-then-truncate (toward zero).  This is
  exact whenever the true product `amount * 10000` fits in `f32`'s 24-bit
  significand, which holds for every concrete amount used in the witnesses
  and counterexamples below.
* `HashMap` becomes an association list with `insert` replacing the
  existing binding, and `get`/`get_mut` becoming `mapFind`.
* The `unwrap` calls inside dispute/resolve/chargeback abort the process
  on `None`; the state carries a `panicked` flag that is set exactly when
  one of those unwraps would fail.
-/

/-- The `type` column of an input record (`enum TxType` in the source). -/
inductive TxType where
  | Deposit
  | Withdrawal
  | Dispute
  | Resolve
  | Chargeback
deriving DecidableEq, Repr

/-- Per-stored-record dispute tag (`enum DepositState`); `NotApplicable` is
the `Default` used by the deserializer for every freshly parsed record. -/
inductive DepositState where
  | NotApplicable
  | Deposited
  | InDispute
deriving DecidableEq, Repr

/-- One parsed input event (`struct InputRecord`).  `deposit_state` is
skipped by the deserializer, so a parsed record always carries the default
`NotApplicable`; the field is kept because stored records reuse this type. -/
structure InputRecord where
  tx_type : TxType
  deposit_state : DepositState := DepositState.NotApplicable
  client_id : Nat
  tx_id : Nat
  amount : Option ℚ
deriving DecidableEq, Repr

/-- One client balance snapshot (`struct OutputRecord`). -/
structure OutputRecord where
  available : ℤ
  held : ℤ
  total : ℤ
  locked : Bool
deriving DecidableEq, Repr

/-- Models `OutputRecord::new(amount)`: a fresh account holding `amount`. -/
def OutputRecord.new (amount : ℤ) : OutputRecord :=
  { available := amount, held := 0, total := amount, locked := false }

/-- Lookup in an association-list map (models `HashMap::get`). -/
def mapFind {β : Type} (k : Nat) : List (Nat × β) → Option β
  | [] => none
  | (k', v) :: rest => if k' = k then some v else mapFind k rest

/-- Insert-or-replace in an association-list map (models `HashMap::insert`,
which overwrites an existing binding). -/
def mapInsert {β : Type} (k : Nat) (v : β) : List (Nat × β) → List (Nat × β)
  | [] => [(k, v)]
  | (k', v') :: rest =>
      if k' = k then (k, v) :: rest else (k', v') :: mapInsert k v rest

/-- The two maps owned by one processing run, plus a flag recording whether
an internal `unwrap` in dispute/resolve/chargeback hit its error branch
(which in the source aborts the process). -/
structure EngineState where
  tx_map : List (Nat × InputRecord)
  client_map : List (Nat × OutputRecord)
  panicked : Bool
deriving DecidableEq, Repr

/-- The state at the start of a run: both maps empty. -/
def initState : EngineState :=
  { tx_map := [], client_map := [], panicked := false }

/-- Models `(amount * 1e4).round() as i64` from the deposit and withdrawal
handlers: scale the exact value `q = q.num / q.den` by 10⁴ and round half
away from zero (the semantics of Rust `f32::round`).  Written directly on
the numerator and denominator so that it evaluates by kernel reduction:
for `x = n / d` with `d > 0`, rounding `|x|` half away from zero is
`⌊(2|n| + d) / (2d)⌋`, and the sign factor restores the sign of `x`.
`roundFix_eq_floor` below certifies the definition against `⌊q·10⁴ + ½⌋`
for the non-negative amounts the handlers actually convert. -/
def roundFix (q : ℚ) : ℤ :=
  (q.num * 10000).sign * (((2 * (q.num * 10000).natAbs + q.den) / (2 * q.den) : ℕ) : ℤ)

/-- Models `(amount * 1e4) as i64` from the dispute, resolve and chargeback
handlers: scale the exact value by 10⁴ and truncate toward zero (the
semantics of a Rust float-to-integer `as` cast).  `Int.tdiv` is exactly
truncation toward zero of `(q.num · 10⁴) / q.den`; `truncFix_eq_floor`
below certifies it against `⌊q·10⁴⌋` for non-negative amounts. -/
def truncFix (q : ℚ) : ℤ :=
  (q.num * 10000).tdiv q.den

/-- Models `is_client_locked`: true iff the client has an account entry and it
is locked. -/
def is_client_locked (client_id : Nat) (client_map : List (Nat × OutputRecord)) : Bool :=
  match mapFind client_id client_map with
  | some output_record => output_record.locked
  | none => false

/-- Models `handle_deposit`.  Returns the state after the handler together with
`true` iff the handler returned `Ok` (the transaction was applied). -/
def handle_deposit (record : InputRecord) (s : EngineState) : EngineState × Bool :=
  if (mapFind record.tx_id s.tx_map).isSome
      || is_client_locked record.client_id s.client_map then (s, false)
  else
    match record.amount with
    | none => (s, false)
    | some a =>
      if a < 0 then (s, false)
      else
        let amount := roundFix a
        let stored := { record with deposit_state := DepositState.Deposited }
        let tx_map' := mapInsert record.tx_id stored s.tx_map
        let client_map' :=
          match mapFind record.client_id s.client_map with
          | some o =>
              mapInsert record.client_id
                { o with available := o.available + amount, total := o.total + amount }
                s.client_map
          | none => mapInsert record.client_id (OutputRecord.new amount) s.client_map
        ({ s with tx_map := tx_map', client_map := client_map' }, true)

/-- Models `handle_withdraw`.  Note the source inserts the record into `tx_map`
before the balance lookup, so the record is stored (with its parsed
`deposit_state`) even when the withdrawal is then rejected for
insufficient funds or for an unknown client. -/
def handle_withdraw (record : InputRecord) (s : EngineState) : EngineState × Bool :=
  if (mapFind record.tx_id s.tx_map).isSome
      || is_client_locked record.client_id s.client_map then (s, false)
  else
    match record.amount with
    | none => (s, false)
    | some a =>
      if a < 0 then (s, false)
      else
        let amount := roundFix a
        let tx_map' := mapInsert record.tx_id record s.tx_map
        match mapFind record.client_id s.client_map with
        | some o =>
            if o.available < amount then ({ s with tx_map := tx_map' }, false)
            else
              ({ s with tx_map := tx_map',
                        client_map := mapInsert record.client_id
                          { o with available := o.available - amount,
                                   total := o.total - amount } s.client_map }, true)
        | none =>
            ({ s with tx_map := tx_map',
                      client_map := mapInsert record.client_id (OutputRecord.new 0)
                        s.client_map }, false)

/-- Models `handle_dispute`.  The final `match` models the two `unwrap` calls: if
the stored amount or the client entry is missing the process panics. -/
def handle_dispute (record : InputRecord) (s : EngineState) : EngineState × Bool :=
  match mapFind record.tx_id s.tx_map with
  | none => (s, false)
  | some d =>
    if d.client_id ≠ record.client_id
        ∨ d.deposit_state ≠ DepositState.Deposited
        ∨ is_client_locked record.client_id s.client_map then (s, false)
    else
      match d.amount, mapFind d.client_id s.client_map with
      | some a, some o =>
          let amount_to_hold := truncFix a
          ({ s with
              tx_map := mapInsert record.tx_id
                { d with deposit_state := DepositState.InDispute } s.tx_map,
              client_map := mapInsert d.client_id
                { o with available := o.available - amount_to_hold,
                         held := o.held + amount_to_hold } s.client_map }, true)
      | _, _ => ({ s with panicked := true }, false)

/-- Models `handle_resolve`. -/
def handle_resolve (record : InputRecord) (s : EngineState) : EngineState × Bool :=
  match mapFind record.tx_id s.tx_map with
  | none => (s, false)
  | some d =>
    if d.client_id ≠ record.client_id
        ∨ d.deposit_state ≠ DepositState.InDispute
        ∨ is_client_locked record.client_id s.client_map then (s, false)
    else
      match d.amount, mapFind d.client_id s.client_map with
      | some a, some o =>
          let amount_to_resolve := truncFix a
          ({ s with
              tx_map := mapInsert record.tx_id
                { d with deposit_state := DepositState.Deposited } s.tx_map,
              client_map := mapInsert d.client_id
                { o with available := o.available + amount_to_resolve,
                         held := o.held - amount_to_resolve } s.client_map }, true)
      | _, _ => ({ s with panicked := true }, false)

/-- Models `handle_chargeback`.  The stored record is not modified: only the
client entry changes (`held`/`total` reduced, `locked` set). -/
def handle_chargeback (record : InputRecord) (s : EngineState) : EngineState × Bool :=
  match mapFind record.tx_id s.tx_map with
  | none => (s, false)
  | some d =>
    if d.client_id ≠ record.client_id
        ∨ d.deposit_state ≠ DepositState.InDispute
        ∨ is_client_locked record.client_id s.client_map then (s, false)
    else
      match d.amount, mapFind d.client_id s.client_map with
      | some a, some o =>
          let amount_to_withdraw := truncFix a
          ({ s with
              client_map := mapInsert d.client_id
                { o with held := o.held - amount_to_withdraw,
                         total := o.total - amount_to_withdraw,
                         locked := true } s.client_map }, true)
      | _, _ => ({ s with panicked := true }, false)

/-- Dispatch on `tx_type`, keeping the handler's `Ok`/`Err` outcome
(`process_input_record` discards it; it is exposed here for the theorems). -/
def handle_record (record : InputRecord) (s : EngineState) : EngineState × Bool :=
  match record.tx_type with
  | TxType.Deposit => handle_deposit record s
  | TxType.Withdrawal => handle_withdraw record s
  | TxType.Dispute => handle_dispute record s
  | TxType.Resolve => handle_resolve record s
  | TxType.Chargeback => handle_chargeback record s

/-- Models `process_input_record` on a successfully parsed record: apply the
handler and ignore its outcome (a parse error leaves the state unchanged
and is not modelled further). -/
def process_input_record (record : InputRecord) (s : EngineState) : EngineState :=
  (handle_record record s).1

/-- The processing loop of `process_csv_file`: fold the records in arrival
order over the state. -/
def processAll (records : List InputRecord) (s : EngineState) : EngineState :=
  List.foldl (fun t r => process_input_record r t) s records

/-! ### Map lemmas -/

theorem mapFind_mapInsert {β : Type} (k k' : Nat) (v : β) (m : List (Nat × β)) :
    mapFind k (mapInsert k' v m) = if k' = k then some v else mapFind k m := by
  induction m with
  | nil => simp [mapFind, mapInsert]
  | cons hd tl ih =>
    obtain ⟨k'', v''⟩ := hd
    simp only [mapInsert, mapFind]
    by_cases h1 : k'' = k' <;> by_cases h2 : k'' = k <;> by_cases h3 : k' = k <;>
      simp_all [mapFind]

theorem mapFind_mapInsert_self {β : Type} (k : Nat) (v : β) (m : List (Nat × β)) :
    mapFind k (mapInsert k v m) = some v := by
  simp [mapFind_mapInsert]

theorem mapFind_mapInsert_ne {β : Type} {k k' : Nat} (v : β) (m : List (Nat × β))
    (h : k' ≠ k) : mapFind k (mapInsert k' v m) = mapFind k m := by
  simp [mapFind_mapInsert, h]

/-! ### The balance equation `total = available + held` (claim C3) -/

/-- Every account in the table satisfies `total = available + held`. -/
def balInvMap (m : List (Nat × OutputRecord)) : Prop :=
  ∀ c o, mapFind c m = some o → o.total = o.available + o.held

/-- The balance equation for every client of a state. -/
def balInv (s : EngineState) : Prop := balInvMap s.client_map

theorem balInvMap_insert {m : List (Nat × OutputRecord)} {c : Nat} {o : OutputRecord}
    (hm : balInvMap m) (ho : o.total = o.available + o.held) :
    balInvMap (mapInsert c o m) := by
  intro c' o' h
  rw [mapFind_mapInsert] at h
  split at h
  · cases h; exact ho
  · exact hm c' o' h

theorem balInv_handle_deposit (record : InputRecord) (s : EngineState) (h : balInv s) :
    balInv (handle_deposit record s).1 := by
  unfold handle_deposit
  split
  · exact h
  · split
    · exact h
    · split
      · exact h
      · simp only [balInv]
        split
        · next o ho =>
          exact balInvMap_insert h (by have := h _ _ ho; dsimp; omega)
        · exact balInvMap_insert h (by simp [OutputRecord.new])

theorem balInv_handle_withdraw (record : InputRecord) (s : EngineState) (h : balInv s) :
    balInv (handle_withdraw record s).1 := by
  unfold handle_withdraw
  split
  · exact h
  · split
    · exact h
    · split
      · exact h
      · split
        · next o ho =>
          dsimp only
          split
          · exact h
          · exact balInvMap_insert h (by have := h _ _ ho; dsimp; omega)
        · exact balInvMap_insert h (by simp [OutputRecord.new])

theorem balInv_handle_dispute (record : InputRecord) (s : EngineState) (h : balInv s) :
    balInv (handle_dispute record s).1 := by
  unfold handle_dispute
  split
  · exact h
  · split
    · exact h
    · split
      · next a o _ ho =>
        exact balInvMap_insert h (by have := h _ _ ho; dsimp; omega)
      · exact h

theorem balInv_handle_resolve (record : InputRecord) (s : EngineState) (h : balInv s) :
    balInv (handle_resolve record s).1 := by
  unfold handle_resolve
  split
  · exact h
  · split
    · exact h
    · split
      · next a o _ ho =>
        exact balInvMap_insert h (by have := h _ _ ho; dsimp; omega)
      · exact h

theorem balInv_handle_chargeback (record : InputRecord) (s : EngineState) (h : balInv s) :
    balInv (handle_chargeback record s).1 := by
  unfold handle_chargeback
  split
  · exact h
  · split
    · exact h
    · split
      · next a o _ ho =>
        exact balInvMap_insert h (by have := h _ _ ho; dsimp; omega)
      · exact h

theorem balInv_process (record : InputRecord) (s : EngineState) (h : balInv s) :
    balInv (process_input_record record s) := by
  unfold process_input_record handle_record
  cases record.tx_type
  · exact balInv_handle_deposit record s h
  · exact balInv_handle_withdraw record s h
  · exact balInv_handle_dispute record s h
  · exact balInv_handle_resolve record s h
  · exact balInv_handle_chargeback record s h

theorem balInv_processAll (records : List InputRecord) (s : EngineState) (h : balInv s) :
    balInv (processAll records s) := by
  induction records generalizing s with
  | nil => exact h
  | cons r rs ih => exact ih _ (balInv_process r s h)

/-! ### Record shorthands for concrete scenarios -/

/-- A parsed deposit row: `deposit, c, t, q` (the deserializer leaves
`deposit_state` at its default `NotApplicable`). -/
def depositRec (c t : Nat) (q : ℚ) : InputRecord :=
  { tx_type := TxType.Deposit, client_id := c, tx_id := t, amount := some q }

/-- A parsed withdrawal row: `withdrawal, c, t, q`. -/
def withdrawalRec (c t : Nat) (q : ℚ) : InputRecord :=
  { tx_type := TxType.Withdrawal, client_id := c, tx_id := t, amount := some q }

/-- A parsed dispute row: `dispute, c, t,` (no amount). -/
def disputeRec (c t : Nat) : InputRecord :=
  { tx_type := TxType.Dispute, client_id := c, tx_id := t, amount := none }

/-- A parsed resolve row: `resolve, c, t,` (no amount). -/
def resolveRec (c t : Nat) : InputRecord :=
  { tx_type := TxType.Resolve, client_id := c, tx_id := t, amount := none }

/-- A parsed chargeback row: `chargeback, c, t,` (no amount). -/
def chargebackRec (c t : Nat) : InputRecord :=
  { tx_type := TxType.Chargeback, client_id := c, tx_id := t, amount := none }

/-! ### Claim C3 -/

/-- C3: for every input record sequence and every client present in the
Account Table, after each record is processed (the sequence below is
arbitrary, so this holds at every intermediate point of a run) the equation
`total = available + held` holds for that client's balance. -/
theorem c3_total_eq_available_add_held (records : List InputRecord) (c : Nat)
    (o : OutputRecord)
    (h : mapFind c (processAll records initState).client_map = some o) :
    o.total = o.available + o.held :=
  balInv_processAll records initState
    (by intro c' o' h'; simp [initState, mapFind] at h') c o h

theorem c3_total_eq_available_add_held_witness :
    mapFind 1 (processAll [depositRec 1 1 5, disputeRec 1 1] initState).client_map
      = some { available := 0, held := 50000, total := 50000, locked := false } ∧
    (50000 : ℤ) = 0 + 50000 :=
  ⟨by decide,
   c3_total_eq_available_add_held [depositRec 1 1 5, disputeRec 1 1] 1
     { available := 0, held := 50000, total := 50000, locked := false } (by decide)⟩

/-! ### Claim C6 -/

/-- C6: a deposit or withdrawal whose `tx_id` is already present in the
Transaction Ledger is rejected regardless of its client or amount, and the
whole state (ledger and account table) is left exactly as it was. -/
theorem c6_duplicate_tx_rejected (record : InputRecord) (s : EngineState)
    (hdup : (mapFind record.tx_id s.tx_map).isSome)
    (hkind : record.tx_type = TxType.Deposit ∨ record.tx_type = TxType.Withdrawal) :
    handle_record record s = (s, false) := by
  rcases hkind with h | h <;> unfold handle_record <;> rw [h]
  · rw [handle_deposit, if_pos (by simp [hdup])]
  · rw [handle_withdraw, if_pos (by simp [hdup])]

theorem c6_duplicate_tx_rejected_witness :
    (mapFind (depositRec 2 1 7).tx_id
      (processAll [depositRec 1 1 5] initState).tx_map).isSome = true ∧
    handle_record (depositRec 2 1 7) (processAll [depositRec 1 1 5] initState)
      = (processAll [depositRec 1 1 5] initState, false) :=
  ⟨by decide,
   c6_duplicate_tx_rejected (depositRec 2 1 7) (processAll [depositRec 1 1 5] initState)
     (by decide) (Or.inl rfl)⟩

/-! ### Acceptance characterizations of the handlers -/

theorem handle_deposit_accepted {record : InputRecord} {s s' : EngineState}
    (h : handle_deposit record s = (s', true)) :
    ∃ a, mapFind record.tx_id s.tx_map = none ∧
      is_client_locked record.client_id s.client_map = false ∧
      record.amount = some a ∧ ¬a < 0 ∧
      s' = { s with
              tx_map := mapInsert record.tx_id
                { record with deposit_state := DepositState.Deposited } s.tx_map,
              client_map :=
                match mapFind record.client_id s.client_map with
                | some o =>
                    mapInsert record.client_id
                      { o with available := o.available + roundFix a,
                               total := o.total + roundFix a } s.client_map
                | none =>
                    mapInsert record.client_id (OutputRecord.new (roundFix a))
                      s.client_map } := by
  unfold handle_deposit at h
  split at h
  · exact absurd h (by simp)
  · next hguard =>
    have hA : mapFind record.tx_id s.tx_map = none := by
      cases hx : mapFind record.tx_id s.tx_map
      · rfl
      · rw [hx] at hguard; simp at hguard
    have hB : is_client_locked record.client_id s.client_map = false := by
      cases hx : is_client_locked record.client_id s.client_map
      · rfl
      · rw [hx] at hguard; simp at hguard
    split at h
    · exact absurd h (by simp)
    · next a ha =>
      split at h
      · exact absurd h (by simp)
      · next hneg =>
        injection h with h1 _
        exact ⟨a, hA, hB, ha, hneg, h1.symm⟩

theorem handle_withdraw_accepted {record : InputRecord} {s s' : EngineState}
    (h : handle_withdraw record s = (s', true)) :
    ∃ a o, mapFind record.tx_id s.tx_map = none ∧
      is_client_locked record.client_id s.client_map = false ∧
      record.amount = some a ∧ ¬a < 0 ∧
      mapFind record.client_id s.client_map = some o ∧ ¬o.available < roundFix a ∧
      s' = { s with
              tx_map := mapInsert record.tx_id record s.tx_map,
              client_map := mapInsert record.client_id
                { o with available := o.available - roundFix a,
                         total := o.total - roundFix a } s.client_map } := by
  unfold handle_withdraw at h
  split at h
  · exact absurd h (by simp)
  · next hguard =>
    have hA : mapFind record.tx_id s.tx_map = none := by
      cases hx : mapFind record.tx_id s.tx_map
      · rfl
      · rw [hx] at hguard; simp at hguard
    have hB : is_client_locked record.client_id s.client_map = false := by
      cases hx : is_client_locked record.client_id s.client_map
      · rfl
      · rw [hx] at hguard; simp at hguard
    split at h
    · exact absurd h (by simp)
    · next a ha =>
      split at h
      · exact absurd h (by simp)
      · next hneg =>
        dsimp only at h
        split at h
        · next o ho =>
          split at h
          · exact absurd h (by simp)
          · next hfunds =>
            injection h with h1 _
            exact ⟨a, o, hA, hB, ha, hneg, ho, hfunds, h1.symm⟩
        · exact absurd h (by simp)

theorem handle_dispute_accepted {record : InputRecord} {s s' : EngineState}
    (h : handle_dispute record s = (s', true)) :
    ∃ d a o, mapFind record.tx_id s.tx_map = some d ∧
      d.client_id = record.client_id ∧ d.deposit_state = DepositState.Deposited ∧
      is_client_locked record.client_id s.client_map = false ∧
      d.amount = some a ∧ mapFind d.client_id s.client_map = some o ∧
      s' = { s with
              tx_map := mapInsert record.tx_id
                { d with deposit_state := DepositState.InDispute } s.tx_map,
              client_map := mapInsert d.client_id
                { o with available := o.available - truncFix a,
                         held := o.held + truncFix a } s.client_map } := by
  unfold handle_dispute at h
  split at h
  · exact absurd h (by simp)
  · next d hd =>
    split at h
    · exact absurd h (by simp)
    · next hguard =>
      push_neg at hguard
      obtain ⟨hcl, hst, hlk⟩ := hguard
      split at h
      · next a o ha ho =>
        injection h with h1 _
        exact ⟨d, a, o, hd, hcl, hst, Bool.not_eq_true _ ▸ hlk, ha, ho, h1.symm⟩
      · exact absurd h (by simp)

theorem handle_resolve_accepted {record : InputRecord} {s s' : EngineState}
    (h : handle_resolve record s = (s', true)) :
    ∃ d a o, mapFind record.tx_id s.tx_map = some d ∧
      d.client_id = record.client_id ∧ d.deposit_state = DepositState.InDispute ∧
      is_client_locked record.client_id s.client_map = false ∧
      d.amount = some a ∧ mapFind d.client_id s.client_map = some o ∧
      s' = { s with
              tx_map := mapInsert record.tx_id
                { d with deposit_state := DepositState.Deposited } s.tx_map,
              client_map := mapInsert d.client_id
                { o with available := o.available + truncFix a,
                         held := o.held - truncFix a } s.client_map } := by
  unfold handle_resolve at h
  split at h
  · exact absurd h (by simp)
  · next d hd =>
    split at h
    · exact absurd h (by simp)
    · next hguard =>
      push_neg at hguard
      obtain ⟨hcl, hst, hlk⟩ := hguard
      split at h
      · next a o ha ho =>
        injection h with h1 _
        exact ⟨d, a, o, hd, hcl, hst, Bool.not_eq_true _ ▸ hlk, ha, ho, h1.symm⟩
      · exact absurd h (by simp)

theorem handle_chargeback_accepted {record : InputRecord} {s s' : EngineState}
    (h : handle_chargeback record s = (s', true)) :
    ∃ d a o, mapFind record.tx_id s.tx_map = some d ∧
      d.client_id = record.client_id ∧ d.deposit_state = DepositState.InDispute ∧
      is_client_locked record.client_id s.client_map = false ∧
      d.amount = some a ∧ mapFind d.client_id s.client_map = some o ∧
      s' = { s with
              client_map := mapInsert d.client_id
                { o with held := o.held - truncFix a,
                         total := o.total - truncFix a,
                         locked := true } s.client_map } := by
  unfold handle_chargeback at h
  split at h
  · exact absurd h (by simp)
  · next d hd =>
    split at h
    · exact absurd h (by simp)
    · next hguard =>
      push_neg at hguard
      obtain ⟨hcl, hst, hlk⟩ := hguard
      split at h
      · next a o ha ho =>
        injection h with h1 _
        exact ⟨d, a, o, hd, hcl, hst, Bool.not_eq_true _ ▸ hlk, ha, ho, h1.symm⟩
      · exact absurd h (by simp)

/-! ### Locked accounts (claim C5) -/

theorem is_client_locked_insert_ne {c k : Nat} (o : OutputRecord)
    (m : List (Nat × OutputRecord)) (hne : k ≠ c) :
    is_client_locked c (mapInsert k o m) = is_client_locked c m := by
  unfold is_client_locked
  rw [mapFind_mapInsert, if_neg hne]

theorem locked_reject_deposit (record : InputRecord) (s : EngineState)
    (h : is_client_locked record.client_id s.client_map = true) :
    handle_deposit record s = (s, false) := by
  rw [handle_deposit, if_pos (by simp [h])]

theorem locked_reject_withdraw (record : InputRecord) (s : EngineState)
    (h : is_client_locked record.client_id s.client_map = true) :
    handle_withdraw record s = (s, false) := by
  rw [handle_withdraw, if_pos (by simp [h])]

theorem locked_reject_dispute (record : InputRecord) (s : EngineState)
    (h : is_client_locked record.client_id s.client_map = true) :
    handle_dispute record s = (s, false) := by
  unfold handle_dispute
  split
  · rfl
  · rw [if_pos (Or.inr (Or.inr h))]

theorem locked_reject_resolve (record : InputRecord) (s : EngineState)
    (h : is_client_locked record.client_id s.client_map = true) :
    handle_resolve record s = (s, false) := by
  unfold handle_resolve
  split
  · rfl
  · rw [if_pos (Or.inr (Or.inr h))]

theorem locked_reject_chargeback (record : InputRecord) (s : EngineState)
    (h : is_client_locked record.client_id s.client_map = true) :
    handle_chargeback record s = (s, false) := by
  unfold handle_chargeback
  split
  · rfl
  · rw [if_pos (Or.inr (Or.inr h))]

/-- A record naming a locked client is rejected by every handler with the
state left untouched. -/
theorem locked_client_rejected (record : InputRecord) (s : EngineState)
    (h : is_client_locked record.client_id s.client_map = true) :
    handle_record record s = (s, false) := by
  unfold handle_record
  cases record.tx_type
  · exact locked_reject_deposit record s h
  · exact locked_reject_withdraw record s h
  · exact locked_reject_dispute record s h
  · exact locked_reject_resolve record s h
  · exact locked_reject_chargeback record s h

theorem locked_after_deposit (c : Nat) (record : InputRecord) (s : EngineState)
    (h : is_client_locked c s.client_map = true) (hc : record.client_id ≠ c) :
    is_client_locked c (handle_deposit record s).1.client_map = true := by
  unfold handle_deposit
  split
  · exact h
  · split
    · exact h
    · split
      · exact h
      · dsimp only
        split
        · rw [is_client_locked_insert_ne _ _ hc]; exact h
        · rw [is_client_locked_insert_ne _ _ hc]; exact h

theorem locked_after_withdraw (c : Nat) (record : InputRecord) (s : EngineState)
    (h : is_client_locked c s.client_map = true) (hc : record.client_id ≠ c) :
    is_client_locked c (handle_withdraw record s).1.client_map = true := by
  unfold handle_withdraw
  split
  · exact h
  · split
    · exact h
    · split
      · exact h
      · dsimp only
        split
        · split
          · exact h
          · rw [is_client_locked_insert_ne _ _ hc]; exact h
        · rw [is_client_locked_insert_ne _ _ hc]; exact h

theorem locked_after_dispute (c : Nat) (record : InputRecord) (s : EngineState)
    (h : is_client_locked c s.client_map = true) (hc : record.client_id ≠ c) :
    is_client_locked c (handle_dispute record s).1.client_map = true := by
  unfold handle_dispute
  split
  · exact h
  · next d hd =>
    split
    · exact h
    · next hguard =>
      push_neg at hguard
      split
      · dsimp only
        rw [is_client_locked_insert_ne _ _ (by rw [hguard.1]; exact hc)]
        exact h
      · exact h

theorem locked_after_resolve (c : Nat) (record : InputRecord) (s : EngineState)
    (h : is_client_locked c s.client_map = true) (hc : record.client_id ≠ c) :
    is_client_locked c (handle_resolve record s).1.client_map = true := by
  unfold handle_resolve
  split
  · exact h
  · next d hd =>
    split
    · exact h
    · next hguard =>
      push_neg at hguard
      split
      · dsimp only
        rw [is_client_locked_insert_ne _ _ (by rw [hguard.1]; exact hc)]
        exact h
      · exact h

theorem locked_after_chargeback (c : Nat) (record : InputRecord) (s : EngineState)
    (h : is_client_locked c s.client_map = true) (hc : record.client_id ≠ c) :
    is_client_locked c (handle_chargeback record s).1.client_map = true := by
  unfold handle_chargeback
  split
  · exact h
  · next d hd =>
    split
    · exact h
    · next hguard =>
      push_neg at hguard
      split
      · dsimp only
        rw [is_client_locked_insert_ne _ _ (by rw [hguard.1]; exact hc)]
        exact h
      · exact h

/-- No handler ever clears a locked flag: a client locked before a record
is processed is still locked afterwards. -/
theorem locked_preserved_process (c : Nat) (record : InputRecord) (s : EngineState)
    (h : is_client_locked c s.client_map = true) :
    is_client_locked c (process_input_record record s).client_map = true := by
  by_cases hc : record.client_id = c
  · have hrej := locked_client_rejected record s (by rw [hc]; exact h)
    unfold process_input_record
    rw [hrej]
    exact h
  · unfold process_input_record handle_record
    cases record.tx_type
    · exact locked_after_deposit c record s h hc
    · exact locked_after_withdraw c record s h hc
    · exact locked_after_dispute c record s h hc
    · exact locked_after_resolve c record s h hc
    · exact locked_after_chargeback c record s h hc

theorem locked_preserved_processAll (c : Nat) (records : List InputRecord)
    (s : EngineState) (h : is_client_locked c s.client_map = true) :
    is_client_locked c (processAll records s).client_map = true := by
  induction records generalizing s with
  | nil => exact h
  | cons r rs ih => exact ih _ (locked_preserved_process c r s h)

/-- C5: once a chargeback is applied to a client's account, the account is
locked at every later point of the run, and every subsequent record of any
of the five kinds naming that client is rejected with the whole state
(balances and Transaction Ledger) unchanged. -/
theorem c5_chargeback_locks_forever (record : InputRecord) (s0 s : EngineState)
    (h : handle_chargeback record s0 = (s, true)) (records : List InputRecord) :
    is_client_locked record.client_id (processAll records s).client_map = true ∧
    ∀ r' : InputRecord, r'.client_id = record.client_id →
      handle_record r' (processAll records s) = (processAll records s, false) := by
  obtain ⟨d, a, o, hd, hcl, hst, hlk, ha, ho, hs⟩ := handle_chargeback_accepted h
  have hlocked : is_client_locked record.client_id s.client_map = true := by
    rw [hs]
    dsimp only
    rw [← hcl]
    unfold is_client_locked
    rw [mapFind_mapInsert_self]
  have h1 := locked_preserved_processAll record.client_id records s hlocked
  exact ⟨h1, fun r' hr' => locked_client_rejected r' _ (by rw [hr']; exact h1)⟩

theorem c5_chargeback_locks_forever_witness :
    handle_chargeback (chargebackRec 1 1)
        (processAll [depositRec 1 1 5, disputeRec 1 1] initState)
      = (processAll [depositRec 1 1 5, disputeRec 1 1, chargebackRec 1 1] initState,
         true) ∧
    is_client_locked 1 (processAll [depositRec 1 3 2]
        (processAll [depositRec 1 1 5, disputeRec 1 1, chargebackRec 1 1] initState)).client_map
      = true ∧
    handle_record (withdrawalRec 1 4 1) (processAll [depositRec 1 3 2]
        (processAll [depositRec 1 1 5, disputeRec 1 1, chargebackRec 1 1] initState))
      = (processAll [depositRec 1 3 2]
          (processAll [depositRec 1 1 5, disputeRec 1 1, chargebackRec 1 1] initState),
         false) :=
  ⟨by decide,
   (c5_chargeback_locks_forever (chargebackRec 1 1)
      (processAll [depositRec 1 1 5, disputeRec 1 1] initState)
      (processAll [depositRec 1 1 5, disputeRec 1 1, chargebackRec 1 1] initState)
      (by decide) [depositRec 1 3 2]).1,
   (c5_chargeback_locks_forever (chargebackRec 1 1)
      (processAll [depositRec 1 1 5, disputeRec 1 1] initState)
      (processAll [depositRec 1 1 5, disputeRec 1 1, chargebackRec 1 1] initState)
      (by decide) [depositRec 1 3 2]).2 (withdrawalRec 1 4 1) rfl⟩

/-! ### Claim C7: dispute followed by resolve restores the state -/

/-- C7: an accepted dispute on `(client, tx)` immediately followed by an
accepted resolve on the same `(client, tx)` restores the client's account
entry (available, held, total, locked) and the stored ledger record
(including `deposit_state = Deposited`) exactly to their pre-dispute
values. -/
theorem c7_dispute_resolve_roundtrip (rd rr : InputRecord) (s s1 s2 : EngineState)
    (hT : rr.tx_id = rd.tx_id) (_hC : rr.client_id = rd.client_id)
    (h1 : handle_dispute rd s = (s1, true))
    (h2 : handle_resolve rr s1 = (s2, true)) :
    mapFind rd.client_id s2.client_map = mapFind rd.client_id s.client_map ∧
    mapFind rd.tx_id s2.tx_map = mapFind rd.tx_id s.tx_map ∧
    ∃ d, mapFind rd.tx_id s2.tx_map = some d ∧
      d.deposit_state = DepositState.Deposited := by
  obtain ⟨d, a, o, hd, hcl, hst, hlk, ha, ho, hs1⟩ := handle_dispute_accepted h1
  obtain ⟨d2, a2, o2, hd2, hcl2, hst2, hlk2, ha2, ho2, hs2⟩ := handle_resolve_accepted h2
  rw [hs1] at hd2 ho2
  dsimp only at hd2 ho2
  rw [hT, mapFind_mapInsert_self] at hd2
  replace hd2 : d2 = { d with deposit_state := DepositState.InDispute } :=
    (Option.some.inj hd2).symm
  rw [hd2] at ha2 ho2 hs2
  dsimp only at ha2 ho2 hs2
  rw [ha] at ha2
  replace ha2 : a2 = a := (Option.some.inj ha2).symm
  rw [ha2] at hs2
  rw [mapFind_mapInsert_self] at ho2
  replace ho2 : o2 = { o with available := o.available - truncFix a,
                              held := o.held + truncFix a } :=
    (Option.some.inj ho2).symm
  rw [ho2] at hs2
  rw [hs1] at hs2
  rw [hs2]
  dsimp only
  refine ⟨?_, ?_, ?_⟩
  · rw [← hcl, mapFind_mapInsert_self, ho]
    obtain ⟨av, hl, tt, lk⟩ := o
    simp only [Option.some.injEq, OutputRecord.mk.injEq, and_true]
    exact ⟨by omega, by omega⟩
  · rw [hT, mapFind_mapInsert_self, hd]
    obtain ⟨ty, st, ci, ti, am⟩ := d
    dsimp only at hst
    subst hst
    rfl
  · refine ⟨{ d with deposit_state := DepositState.Deposited }, ?_, rfl⟩
    rw [hT, mapFind_mapInsert_self]

theorem c7_dispute_resolve_roundtrip_witness :
    handle_dispute (disputeRec 1 1) (processAll [depositRec 1 1 5] initState)
      = (processAll [depositRec 1 1 5, disputeRec 1 1] initState, true) ∧
    handle_resolve (resolveRec 1 1)
        (processAll [depositRec 1 1 5, disputeRec 1 1] initState)
      = (processAll [depositRec 1 1 5, disputeRec 1 1, resolveRec 1 1] initState, true) ∧
    mapFind 1 (processAll [depositRec 1 1 5, disputeRec 1 1, resolveRec 1 1]
        initState).client_map
      = mapFind 1 (processAll [depositRec 1 1 5] initState).client_map :=
  ⟨by decide, by decide,
   (c7_dispute_resolve_roundtrip (disputeRec 1 1) (resolveRec 1 1)
      (processAll [depositRec 1 1 5] initState)
      (processAll [depositRec 1 1 5, disputeRec 1 1] initState)
      (processAll [depositRec 1 1 5, disputeRec 1 1, resolveRec 1 1] initState)
      rfl rfl (by decide) (by decide)).1⟩

/-! ### Claim C9: the effect of an accepted chargeback -/

/-- C9: an accepted chargeback subtracts the disputed (truncated) amount
from both `held` and `total`, leaves `available` unchanged, sets `locked`,
and leaves the stored ledger record untouched — its `deposit_state` is
still `InDispute`. -/
theorem c9_chargeback_effect (record : InputRecord) (s s' : EngineState)
    (h : handle_chargeback record s = (s', true)) :
    ∃ d a o, mapFind record.tx_id s.tx_map = some d ∧ d.amount = some a ∧
      mapFind record.client_id s.client_map = some o ∧
      mapFind record.client_id s'.client_map =
        some { available := o.available, held := o.held - truncFix a,
               total := o.total - truncFix a, locked := true } ∧
      s'.tx_map = s.tx_map ∧
      mapFind record.tx_id s'.tx_map = some d ∧
      d.deposit_state = DepositState.InDispute := by
  obtain ⟨d, a, o, hd, hcl, hst, hlk, ha, ho, hs⟩ := handle_chargeback_accepted h
  subst hs
  refine ⟨d, a, o, hd, ha, by rw [← hcl]; exact ho, ?_, rfl, hd, hst⟩
  dsimp only
  rw [← hcl, mapFind_mapInsert_self]

theorem c9_chargeback_effect_witness :
    handle_chargeback (chargebackRec 1 1)
        (processAll [depositRec 1 1 5, disputeRec 1 1] initState)
      = (processAll [depositRec 1 1 5, disputeRec 1 1, chargebackRec 1 1] initState,
         true) ∧
    mapFind 1 (processAll [depositRec 1 1 5, disputeRec 1 1, chargebackRec 1 1]
        initState).client_map
      = some { available := 0, held := 0, total := 0, locked := true } := by
  refine ⟨by decide, ?_⟩
  obtain ⟨d, a, o, hd, ha, ho, hcl, -⟩ :=
    c9_chargeback_effect (chargebackRec 1 1)
      (processAll [depositRec 1 1 5, disputeRec 1 1] initState)
      (processAll [depositRec 1 1 5, disputeRec 1 1, chargebackRec 1 1] initState)
      (by decide)
  have hd' : d = { tx_type := TxType.Deposit, deposit_state := DepositState.InDispute,
                   client_id := 1, tx_id := 1, amount := some 5 } := by
    have : mapFind 1 (processAll [depositRec 1 1 5, disputeRec 1 1] initState).tx_map
        = some { tx_type := TxType.Deposit, deposit_state := DepositState.InDispute,
                 client_id := 1, tx_id := 1, amount := some 5 } := by decide
    exact Option.some.inj (hd.symm.trans this)
  subst hd'
  have ha' : a = 5 := Option.some.inj ha.symm
  subst ha'
  have ho' : o = { available := 0, held := 50000, total := 50000, locked := false } := by
    have : mapFind 1 (processAll [depositRec 1 1 5, disputeRec 1 1] initState).client_map
        = some { available := 0, held := 50000, total := 50000, locked := false } := by
      decide
    exact Option.some.inj (ho.symm.trans this)
  subst ho'
  have hcc : (chargebackRec 1 1).client_id = 1 := rfl
  rw [hcc] at hcl
  rw [hcl]
  decide

/-! ### Claim C10: the internal unwraps are safe -/

theorem isSome_mapFind_mapInsert_self {β : Type} (k : Nat) (v : β)
    (m : List (Nat × β)) : (mapFind k (mapInsert k v m)).isSome = true := by
  rw [mapFind_mapInsert_self]; rfl

theorem isSome_mapFind_mapInsert {β : Type} {c : Nat} (k : Nat) (v : β)
    {m : List (Nat × β)} (h : (mapFind c m).isSome = true) :
    (mapFind c (mapInsert k v m)).isSome = true := by
  rw [mapFind_mapInsert]
  split
  · rfl
  · exact h

/-- The data invariant behind the `unwrap` calls: every stored ledger
record carries an amount, and its client has an entry in the account
table; together with `panicked = false` this says no unwrap has failed
and none can fail next. -/
def ledgerInv (s : EngineState) : Prop :=
  ∀ t d, mapFind t s.tx_map = some d →
    d.amount.isSome = true ∧ (mapFind d.client_id s.client_map).isSome = true

/-- States that have not panicked and whose ledger is well-formed. -/
def goodInv (s : EngineState) : Prop := s.panicked = false ∧ ledgerInv s

theorem goodInv_handle_deposit (record : InputRecord) (s : EngineState)
    (h : goodInv s) : goodInv (handle_deposit record s).1 := by
  unfold handle_deposit
  split
  · exact h
  · split
    · exact h
    · next a ha =>
      split
      · exact h
      · refine ⟨h.1, ?_⟩
        intro t dd hdd
        dsimp only at hdd ⊢
        rw [mapFind_mapInsert] at hdd
        split at hdd
        · cases hdd
          constructor
          · dsimp only
            rw [ha]
            rfl
          · dsimp only
            split
            · exact isSome_mapFind_mapInsert_self _ _ _
            · exact isSome_mapFind_mapInsert_self _ _ _
        · obtain ⟨h1, h2⟩ := h.2 t dd hdd
          refine ⟨h1, ?_⟩
          split
          · exact isSome_mapFind_mapInsert _ _ h2
          · exact isSome_mapFind_mapInsert _ _ h2

theorem goodInv_handle_withdraw (record : InputRecord) (s : EngineState)
    (h : goodInv s) : goodInv (handle_withdraw record s).1 := by
  unfold handle_withdraw
  split
  · exact h
  · split
    · exact h
    · next a ha =>
      split
      · exact h
      · dsimp only
        split
        · next o ho =>
          split
          · refine ⟨h.1, ?_⟩
            intro t dd hdd
            dsimp only at hdd ⊢
            rw [mapFind_mapInsert] at hdd
            split at hdd
            · next ht =>
              cases hdd
              exact ⟨by rw [ha]; rfl, by rw [ho]; rfl⟩
            · exact h.2 t dd hdd
          · refine ⟨h.1, ?_⟩
            intro t dd hdd
            dsimp only at hdd ⊢
            rw [mapFind_mapInsert] at hdd
            split at hdd
            · cases hdd
              exact ⟨by rw [ha]; rfl, isSome_mapFind_mapInsert_self _ _ _⟩
            · obtain ⟨h1, h2⟩ := h.2 t dd hdd
              exact ⟨h1, isSome_mapFind_mapInsert _ _ h2⟩
        · refine ⟨h.1, ?_⟩
          intro t dd hdd
          dsimp only at hdd ⊢
          rw [mapFind_mapInsert] at hdd
          split at hdd
          · cases hdd
            exact ⟨by rw [ha]; rfl, isSome_mapFind_mapInsert_self _ _ _⟩
          · obtain ⟨h1, h2⟩ := h.2 t dd hdd
            exact ⟨h1, isSome_mapFind_mapInsert _ _ h2⟩

theorem goodInv_handle_dispute (record : InputRecord) (s : EngineState)
    (h : goodInv s) : goodInv (handle_dispute record s).1 := by
  unfold handle_dispute
  split
  · exact h
  · next d hd =>
    split
    · exact h
    · split
      · next a o ha ho =>
        refine ⟨h.1, ?_⟩
        intro t dd hdd
        dsimp only at hdd ⊢
        rw [mapFind_mapInsert] at hdd
        split at hdd
        · cases hdd
          refine ⟨by dsimp only; rw [ha]; rfl, ?_⟩
          exact isSome_mapFind_mapInsert_self _ _ _
        · obtain ⟨h1, h2⟩ := h.2 t dd hdd
          exact ⟨h1, isSome_mapFind_mapInsert _ _ h2⟩
      · next hnomatch =>
        obtain ⟨h1, h2⟩ := h.2 record.tx_id d hd
        obtain ⟨a, ha⟩ := Option.isSome_iff_exists.mp h1
        obtain ⟨o, ho⟩ := Option.isSome_iff_exists.mp h2
        exact (hnomatch a o ha ho).elim

theorem goodInv_handle_resolve (record : InputRecord) (s : EngineState)
    (h : goodInv s) : goodInv (handle_resolve record s).1 := by
  unfold handle_resolve
  split
  · exact h
  · next d hd =>
    split
    · exact h
    · split
      · next a o ha ho =>
        refine ⟨h.1, ?_⟩
        intro t dd hdd
        dsimp only at hdd ⊢
        rw [mapFind_mapInsert] at hdd
        split at hdd
        · cases hdd
          refine ⟨by dsimp only; rw [ha]; rfl, ?_⟩
          exact isSome_mapFind_mapInsert_self _ _ _
        · obtain ⟨h1, h2⟩ := h.2 t dd hdd
          exact ⟨h1, isSome_mapFind_mapInsert _ _ h2⟩
      · next hnomatch =>
        obtain ⟨h1, h2⟩ := h.2 record.tx_id d hd
        obtain ⟨a, ha⟩ := Option.isSome_iff_exists.mp h1
        obtain ⟨o, ho⟩ := Option.isSome_iff_exists.mp h2
        exact (hnomatch a o ha ho).elim

theorem goodInv_handle_chargeback (record : InputRecord) (s : EngineState)
    (h : goodInv s) : goodInv (handle_chargeback record s).1 := by
  unfold handle_chargeback
  split
  · exact h
  · next d hd =>
    split
    · exact h
    · split
      · next a o ha ho =>
        refine ⟨h.1, ?_⟩
        intro t dd hdd
        dsimp only at hdd ⊢
        obtain ⟨h1, h2⟩ := h.2 t dd hdd
        exact ⟨h1, isSome_mapFind_mapInsert _ _ h2⟩
      · next hnomatch =>
        obtain ⟨h1, h2⟩ := h.2 record.tx_id d hd
        obtain ⟨a, ha⟩ := Option.isSome_iff_exists.mp h1
        obtain ⟨o, ho⟩ := Option.isSome_iff_exists.mp h2
        exact (hnomatch a o ha ho).elim

theorem goodInv_process (record : InputRecord) (s : EngineState)
    (h : goodInv s) : goodInv (process_input_record record s) := by
  unfold process_input_record handle_record
  cases record.tx_type
  · exact goodInv_handle_deposit record s h
  · exact goodInv_handle_withdraw record s h
  · exact goodInv_handle_dispute record s h
  · exact goodInv_handle_resolve record s h
  · exact goodInv_handle_chargeback record s h

theorem goodInv_processAll (records : List InputRecord) (s : EngineState)
    (h : goodInv s) : goodInv (processAll records s) := by
  induction records generalizing s with
  | nil => exact h
  | cons r rs ih => exact ih _ (goodInv_process r s h)

/-- C10: processing any record sequence from the initial state never
panics: the `panicked` flag (set exactly when one of the `unwrap` calls in
dispute/resolve/chargeback would hit its error branch) stays `false`, and
the underlying data invariant holds — every stored ledger record has a
present amount and its `client_id` has an entry in the Account Table, so
whenever a dispute/resolve/chargeback passes its rejection checks the two
internal lookups succeed. -/
theorem c10_no_panic (records : List InputRecord) :
    (processAll records initState).panicked = false ∧
    ∀ t d, mapFind t (processAll records initState).tx_map = some d →
      d.amount.isSome = true ∧
      (mapFind d.client_id (processAll records initState).client_map).isSome = true :=
  goodInv_processAll records initState
    ⟨rfl, by intro t d hd; simp [initState, mapFind] at hd⟩

theorem c10_no_panic_witness :
    (processAll [depositRec 1 1 5, disputeRec 1 1] initState).panicked = false ∧
    ((mapFind 1 (processAll [depositRec 1 1 5, disputeRec 1 1] initState).tx_map
        = some { tx_type := TxType.Deposit, deposit_state := DepositState.InDispute,
                 client_id := 1, tx_id := 1, amount := some 5 }) ∧
      ((some (5 : ℚ)).isSome = true ∧
       (mapFind 1 (processAll [depositRec 1 1 5, disputeRec 1 1]
          initState).client_map).isSome = true)) :=
  ⟨(c10_no_panic [depositRec 1 1 5, disputeRec 1 1]).1,
   by decide,
   (c10_no_panic [depositRec 1 1 5, disputeRec 1 1]).2 1
     { tx_type := TxType.Deposit, deposit_state := DepositState.InDispute,
       client_id := 1, tx_id := 1, amount := some 5 } (by decide)⟩

/-! ### Certifying the fixed-point conversions against the floor function -/

theorem rat_scaled_cast (q : ℚ) :
    q * 10000 = ((q.num * 10000 : ℤ) : ℚ) / ((q.den : ℕ) : ℚ) := by
  conv_lhs => rw [← Rat.num_div_den q]
  push_cast
  ring

/-- Certification: `truncFix` is truncation of the scaled value: on non-negative amounts
(the only ones the handlers store) it is `⌊q·10⁴⌋`. -/
theorem truncFix_eq_floor (q : ℚ) (h : 0 ≤ q) : truncFix q = ⌊q * 10000⌋ := by
  rw [rat_scaled_cast q, Rat.floor_intCast_div_natCast]
  exact Int.tdiv_eq_ediv (mul_nonneg (Rat.num_nonneg.mpr h) (by norm_num))
    (Int.ofNat_nonneg _)

/-- Certification: `roundFix` is round-half-away-from-zero of the scaled value: on
non-negative amounts it is `⌊q·10⁴ + ½⌋`. -/
theorem roundFix_eq_floor (q : ℚ) (h : 0 ≤ q) : roundFix q = ⌊q * 10000 + 1 / 2⌋ := by
  have hnum : 0 ≤ q.num := Rat.num_nonneg.mpr h
  rcases lt_or_eq_of_le hnum with hpos | hzero
  · have hsign : (q.num * 10000).sign = 1 :=
      Int.sign_eq_one_iff_pos.mpr (by positivity)
    have hx : q * 10000 + 1 / 2
        = ((2 * (q.num * 10000) + (q.den : ℤ) : ℤ) : ℚ) / ((2 * q.den : ℕ) : ℚ) := by
      rw [rat_scaled_cast q]
      have hden : ((q.den : ℕ) : ℚ) ≠ 0 := by
        exact_mod_cast Nat.pos_iff_ne_zero.mp q.den_pos
      field_simp
      ring
    rw [hx, Rat.floor_intCast_div_natCast]
    unfold roundFix
    rw [hsign, one_mul]
    have habs : ((q.num * 10000).natAbs : ℤ) = q.num * 10000 :=
      Int.natAbs_of_nonneg (by positivity)
    push_cast [habs]
    norm_num
  · have hq : q = 0 := Rat.num_eq_zero.mp hzero.symm
    subst hq
    have : roundFix 0 = 0 := by decide
    rw [this]
    symm
    rw [Int.floor_eq_zero_iff]
    constructor <;> norm_num

/-- When the stored amount is an exact multiple of 1/10⁴ (every amount
with at most four decimal digits), truncation and rounding agree, so the
amount a dispute moves equals the amount the deposit credited. -/
theorem truncFix_eq_roundFix_of_exact (q : ℚ) (hnn : 0 ≤ q)
    (hint : (q.num * 10000) % (q.den : ℤ) = 0) : truncFix q = roundFix q := by
  have hdvd : ((q.den : ℕ) : ℤ) ∣ q.num * 10000 := Int.dvd_of_emod_eq_zero hint
  have hx : q * 10000 = (((q.num * 10000) / (q.den : ℤ) : ℤ) : ℚ) := by
    rw [rat_scaled_cast q, Int.cast_div_charZero hdvd]
    norm_cast
  rw [truncFix_eq_floor q hnn, roundFix_eq_floor q hnn, hx, Int.floor_intCast,
    Int.floor_int_add]
  have h12 : ⌊(1 / 2 : ℚ)⌋ = 0 := by
    rw [Int.floor_eq_zero_iff]
    constructor <;> norm_num
  rw [h12, add_zero]

/-! ### Claim C4 -/

/-- C4 counterexample: the amount 3/16384 = 0.00018310546875 is exactly
representable in `f32` and its product with 10⁴ (= 1875/1024) is exact in
`f32`, so the rational model agrees with the Rust computation here.  The
deposit handler rounds it to 2 fixed-point units, but the dispute handler
truncates the very same stored amount to 1: the dispute moves 1 unit to
`held` although the deposit credited 2, refuting both "rounds to nearest
in every handler" and "the moved amount equals the credited amount". -/
theorem c4_counterexample :
    roundFix (mkRat 3 16384) = 2 ∧ truncFix (mkRat 3 16384) = 1 ∧
    mapFind 1 (processAll [depositRec 1 1 (mkRat 3 16384)] initState).client_map
      = some { available := 2, held := 0, total := 2, locked := false } ∧
    mapFind 1 (processAll [depositRec 1 1 (mkRat 3 16384), disputeRec 1 1]
        initState).client_map
      = some { available := 1, held := 1, total := 2, locked := false } := by
  refine ⟨by decide, by decide, by decide, by decide⟩

/-- C4 amended: deposit/withdrawal convert by rounding to nearest
(`roundFix`) while dispute/resolve/chargeback truncate (`truncFix`); an
accepted dispute moves `truncFix` of the stored amount from `available`
to `held` (with `total` untouched), and this moved amount equals the
`roundFix` amount the referenced deposit credited whenever the stored
amount is an exact multiple of 1/10⁴ — in particular for every amount
with at most four decimal digits. -/
theorem c4_dispute_moves_truncated_amount (record : InputRecord) (s s' : EngineState)
    (h : handle_dispute record s = (s', true)) :
    ∃ d a o, mapFind record.tx_id s.tx_map = some d ∧ d.amount = some a ∧
      mapFind d.client_id s.client_map = some o ∧
      mapFind d.client_id s'.client_map
        = some { o with available := o.available - truncFix a,
                        held := o.held + truncFix a } ∧
      (0 ≤ a → (a.num * 10000) % (a.den : ℤ) = 0 → truncFix a = roundFix a) := by
  obtain ⟨d, a, o, hd, hcl, hst, hlk, ha, ho, hs⟩ := handle_dispute_accepted h
  refine ⟨d, a, o, hd, ha, ho, ?_,
    fun hnn hint => truncFix_eq_roundFix_of_exact a hnn hint⟩
  rw [hs]
  dsimp only
  rw [mapFind_mapInsert_self]

theorem c4_dispute_moves_truncated_amount_witness :
    handle_dispute (disputeRec 1 1) (processAll [depositRec 1 1 5] initState)
      = (processAll [depositRec 1 1 5, disputeRec 1 1] initState, true) ∧
    (∃ d a o,
      mapFind (disputeRec 1 1).tx_id
          (processAll [depositRec 1 1 5] initState).tx_map = some d ∧
      d.amount = some a ∧
      mapFind d.client_id (processAll [depositRec 1 1 5] initState).client_map
        = some o ∧
      mapFind d.client_id
          (processAll [depositRec 1 1 5, disputeRec 1 1] initState).client_map
        = some { o with available := o.available - truncFix a,
                        held := o.held + truncFix a } ∧
      (0 ≤ a → (a.num * 10000) % (a.den : ℤ) = 0 → truncFix a = roundFix a)) :=
  ⟨by decide,
   c4_dispute_moves_truncated_amount (disputeRec 1 1)
     (processAll [depositRec 1 1 5] initState)
     (processAll [depositRec 1 1 5, disputeRec 1 1] initState) (by decide)⟩

/-! ### Claim C2 -/

/-- C2 counterexample: client 1 deposits 5 (tx 1) and then makes an
accepted withdrawal of 3 (tx 2).  The stored withdrawal record keeps the
deserializer's default `deposit_state = NotApplicable` — not `Deposited` —
so a subsequent dispute of tx 2 by the same client fails the
state-is-`Deposited` precondition and is rejected. -/
theorem c2_counterexample :
    (handle_withdraw (withdrawalRec 1 2 3)
        (processAll [depositRec 1 1 5] initState)).2 = true ∧
    mapFind 2 (processAll [depositRec 1 1 5, withdrawalRec 1 2 3] initState).tx_map
      = some (withdrawalRec 1 2 3) ∧
    (withdrawalRec 1 2 3).deposit_state = DepositState.NotApplicable ∧
    ¬(withdrawalRec 1 2 3).deposit_state = DepositState.Deposited ∧
    handle_dispute (disputeRec 1 2)
        (processAll [depositRec 1 1 5, withdrawalRec 1 2 3] initState)
      = (processAll [depositRec 1 1 5, withdrawalRec 1 2 3] initState, false) := by
  refine ⟨by decide, by decide, by decide, by decide, by decide⟩

/-- C2 amended: an accepted withdrawal stores the record unchanged, so its
`deposit_state` stays at the parsed default `NotApplicable` (never
`Deposited`), and consequently any subsequent dispute referencing that
`tx_id` is rejected with the state unchanged: stored withdrawals can never
be disputed. -/
theorem c2_withdrawal_stored_not_applicable (record : InputRecord) (s s' : EngineState)
    (hpar : record.deposit_state = DepositState.NotApplicable)
    (hw : handle_withdraw record s = (s', true)) :
    mapFind record.tx_id s'.tx_map = some record ∧
    record.deposit_state ≠ DepositState.Deposited ∧
    ∀ r' : InputRecord, r'.tx_id = record.tx_id →
      handle_dispute r' s' = (s', false) := by
  obtain ⟨a, o, hfresh, hlk, ha, hneg, ho, hfunds, hs⟩ := handle_withdraw_accepted hw
  have hstore : mapFind record.tx_id s'.tx_map = some record := by
    rw [hs]
    dsimp only
    rw [mapFind_mapInsert_self]
  refine ⟨hstore, ?_, ?_⟩
  · rw [hpar]
    intro hc
    cases hc
  intro r' hr'
  unfold handle_dispute
  rw [hr', hstore]
  dsimp only
  rw [if_pos (Or.inr (Or.inl (by rw [hpar]; intro hc; cases hc)))]

theorem c2_withdrawal_stored_not_applicable_witness :
    (withdrawalRec 1 2 3).deposit_state = DepositState.NotApplicable ∧
    handle_withdraw (withdrawalRec 1 2 3) (processAll [depositRec 1 1 5] initState)
      = (processAll [depositRec 1 1 5, withdrawalRec 1 2 3] initState, true) ∧
    (mapFind (withdrawalRec 1 2 3).tx_id
        (processAll [depositRec 1 1 5, withdrawalRec 1 2 3] initState).tx_map
      = some (withdrawalRec 1 2 3) ∧
    (withdrawalRec 1 2 3).deposit_state ≠ DepositState.Deposited ∧
    ∀ r' : InputRecord, r'.tx_id = (withdrawalRec 1 2 3).tx_id →
      handle_dispute r' (processAll [depositRec 1 1 5, withdrawalRec 1 2 3] initState)
        = (processAll [depositRec 1 1 5, withdrawalRec 1 2 3] initState, false)) :=
  ⟨rfl, by decide,
   c2_withdrawal_stored_not_applicable (withdrawalRec 1 2 3)
     (processAll [depositRec 1 1 5] initState)
     (processAll [depositRec 1 1 5, withdrawalRec 1 2 3] initState)
     rfl (by decide)⟩

/-! ### Claim C8 -/

/-- C8 counterexample: a withdrawal naming an unknown client but carrying
no amount is rejected by the missing-amount check before the handler ever
looks at the account table, so no zero-balance entry is created and the
client does not appear in the output — refuting the claim's "for every
withdrawal naming a client with no entry". -/
theorem c8_counterexample :
    handle_withdraw
        { tx_type := TxType.Withdrawal, client_id := 9, tx_id := 9, amount := none }
        initState = (initState, false) ∧
    mapFind 9 (handle_withdraw
        { tx_type := TxType.Withdrawal, client_id := 9, tx_id := 9, amount := none }
        initState).1.client_map = none := by
  refine ⟨by decide, by decide⟩

/-- C8 amended: for every withdrawal with a fresh `tx_id` and a present,
non-negative amount naming a client with no entry in the Account Table,
processing creates an entry for that client with `available = held =
total = 0` and `locked = false` (so the client appears in the final
output), stores the withdrawal record in the ledger, and rejects the
withdrawal, leaving the zero balances in place. -/
theorem c8_unknown_client_zero_account (record : InputRecord) (s : EngineState) (a : ℚ)
    (hfresh : mapFind record.tx_id s.tx_map = none)
    (hnoclient : mapFind record.client_id s.client_map = none)
    (ha : record.amount = some a) (hnn : ¬a < 0) :
    handle_withdraw record s
      = ({ s with tx_map := mapInsert record.tx_id record s.tx_map,
                  client_map := mapInsert record.client_id (OutputRecord.new 0)
                    s.client_map }, false) ∧
    mapFind record.client_id (handle_withdraw record s).1.client_map
      = some { available := 0, held := 0, total := 0, locked := false } := by
  have hlk : is_client_locked record.client_id s.client_map = false := by
    unfold is_client_locked
    rw [hnoclient]
  have hres : handle_withdraw record s
      = ({ s with tx_map := mapInsert record.tx_id record s.tx_map,
                  client_map := mapInsert record.client_id (OutputRecord.new 0)
                    s.client_map }, false) := by
    unfold handle_withdraw
    simp only [hfresh, hlk, ha, hnoclient, Option.isSome_none, Bool.or_self,
      Bool.false_eq_true, if_false, if_neg hnn]
  refine ⟨hres, ?_⟩
  rw [hres]
  dsimp only
  rw [mapFind_mapInsert_self]
  rfl

theorem c8_unknown_client_zero_account_witness :
    mapFind 9 initState.tx_map = none ∧
    mapFind 9 initState.client_map = none ∧
    (withdrawalRec 9 9 3).amount = some 3 ∧ ¬(3 : ℚ) < 0 ∧
    (handle_withdraw (withdrawalRec 9 9 3) initState
      = ({ initState with
            tx_map := mapInsert 9 (withdrawalRec 9 9 3) initState.tx_map,
            client_map := mapInsert 9 (OutputRecord.new 0) initState.client_map },
         false) ∧
     mapFind 9 (handle_withdraw (withdrawalRec 9 9 3) initState).1.client_map
      = some { available := 0, held := 0, total := 0, locked := false }) :=
  ⟨rfl, rfl, rfl, by decide,
   c8_unknown_client_zero_account (withdrawalRec 9 9 3) initState 3
     rfl rfl rfl (by decide)⟩

/-! ### Claim C1 -/

/-- C1 is refuted by the code (the claim matches the source's own doc
comments — "Invalid transactions are not kept" — and the spec, but not
the behavior): `handle_withdraw` inserts the record into the ledger
before the balance check, so a withdrawal rejected for insufficient funds
leaves its `tx_id` stored.  At the failing input below, client 1 deposits
5.0 (tx 1) and then attempts to withdraw 10.0 (tx 2): the withdrawal is
rejected and the balances are untouched, yet tx 2 is in the ledger, a
later deposit reusing tx 2 is rejected as a duplicate, and a later
dispute of tx 2 is rejected only by the state check, not as unknown. -/
theorem c1_rejected_withdrawal_still_stored :
    handle_withdraw (withdrawalRec 1 2 10) (processAll [depositRec 1 1 5] initState)
      = (processAll [depositRec 1 1 5, withdrawalRec 1 2 10] initState, false) ∧
    mapFind 2 (processAll [depositRec 1 1 5, withdrawalRec 1 2 10] initState).tx_map
      = some (withdrawalRec 1 2 10) ∧
    mapFind 1 (processAll [depositRec 1 1 5, withdrawalRec 1 2 10] initState).client_map
      = some { available := 50000, held := 0, total := 50000, locked := false } ∧
    handle_deposit (depositRec 1 2 3)
        (processAll [depositRec 1 1 5, withdrawalRec 1 2 10] initState)
      = (processAll [depositRec 1 1 5, withdrawalRec 1 2 10] initState, false) ∧
    handle_dispute (disputeRec 1 2)
        (processAll [depositRec 1 1 5, withdrawalRec 1 2 10] initState)
      = (processAll [depositRec 1 1 5, withdrawalRec 1 2 10] initState, false) := by
  refine ⟨by decide, by decide, by decide, by decide, by decide⟩
